import Mathlib

/-!
Verification of the `jkaninda/logger` Go package (a configurable logging
facade over `log/slog` and `lumberjack`), shallowly embedded in Lean.

The embedding follows `src/logger.go`:
* `Config` mirrors the `Config` struct (the Go `LogLevel` is a string type).
* `Opt` is the exported option surface (`WithLevel`, `WithOutputFile`, ...);
  each option is a pure update of a draft configuration, exactly as the Go
  closures `func(c *Config) { ... }` behave.
* `Logger` mirrors the `Logger` struct: the embedded `*slog.Logger` is
  represented by the handler it was built with (`Handler`), `file` is the
  optional lumberjack writer, `disabled` the off flag.
* `Logger.initLogger`, `New`, `Default`, `Logger.WithOptions`, `Logger.Close`
  and the introspection methods are direct translations.
* Logging calls are modelled by the record the slog handler would write
  (`Handler.handle`): `none` when the handler's minimum level filters the
  call out, otherwise the record together with the writer it goes to.
-/

namespace Jkaninda

/-- Go: `type LogLevel string`. -/
abbrev LogLevel := String

/-- Go constant `LevelDebug LogLevel = "debug"`. -/
def LevelDebug : LogLevel := "debug"

/-- Go constant `LevelInfo LogLevel = "info"`. -/
def LevelInfo : LogLevel := "info"

/-- Go constant `LevelWarning LogLevel = "warning"`. -/
def LevelWarning : LogLevel := "warning"

/-- Go constant `LevelError LogLevel = "error"`. -/
def LevelError : LogLevel := "error"

/-- Go constant `LevelOff LogLevel = "off"`. -/
def LevelOff : LogLevel := "off"

/-- Go struct `Config`: all configurable parameters of the logger. -/
@[ext] structure Config where
  Level : LogLevel
  OutputFile : String
  MaxAgeDays : Int
  MaxBackups : Int
  MaxSizeMB : Int
  Compress : Bool
  JSONFormat : Bool
  UseDefault : Bool
deriving DecidableEq, Repr

/-- The exported option surface of the package, as syntax.  Each constructor
corresponds to one exported `Option`-returning function in `logger.go`;
`applyOpt` gives its meaning (the body of the Go closure). -/
inductive Opt where
  | withLevel (level : LogLevel)
  | withOutputFile (file : String)
  | withMaxAge (days : Int)
  | withMaxBackups (count : Int)
  | withMaxSize (sizeMB : Int)
  | withCompression
  | withJSONFormat
  | withDefaultFormat
deriving DecidableEq, Repr

/-- The effect of one option on a draft configuration: the body of the Go
closure returned by the corresponding `With...` function. -/
def applyOpt (c : Config) (o : Opt) : Config :=
  match o with
  | .withLevel level => { c with Level := level }
  | .withOutputFile file => { c with OutputFile := file }
  | .withMaxAge days => { c with MaxAgeDays := days }
  | .withMaxBackups count => { c with MaxBackups := count }
  | .withMaxSize sizeMB => { c with MaxSizeMB := sizeMB }
  | .withCompression => { c with Compress := true }
  | .withJSONFormat => { c with JSONFormat := true }
  | .withDefaultFormat => { c with UseDefault := true }

/-- Go: `for _, opt := range opts { opt(&cfg) }`. -/
def applyOpts : List Opt → Config → Config
  | [], c => c
  | o :: rest, c => applyOpts rest (applyOpt c o)

/-- Go `WithLevel`. -/
def WithLevel (level : LogLevel) : Opt := Opt.withLevel level

/-- Go `WithOutputFile`. -/
def WithOutputFile (file : String) : Opt := Opt.withOutputFile file

/-- Go `WithMaxAge`. -/
def WithMaxAge (days : Int) : Opt := Opt.withMaxAge days

/-- Go `WithMaxBackups`. -/
def WithMaxBackups (count : Int) : Opt := Opt.withMaxBackups count

/-- Go `WithMaxSize`. -/
def WithMaxSize (sizeMB : Int) : Opt := Opt.withMaxSize sizeMB

/-- Go `WithCompression`. -/
def WithCompression : Opt := Opt.withCompression

/-- Go `WithJSONFormat`. -/
def WithJSONFormat : Opt := Opt.withJSONFormat

/-- Go `WithDefaultFormat`. -/
def WithDefaultFormat : Opt := Opt.withDefaultFormat

/-- Go `WithDebugLevel() Option { return WithLevel(LevelDebug) }`. -/
def WithDebugLevel : Opt := WithLevel LevelDebug

/-- Go `WithInfoLevel`. -/
def WithInfoLevel : Opt := WithLevel LevelInfo

/-- Go `WithWarningLevel`. -/
def WithWarningLevel : Opt := WithLevel LevelWarning

/-- Go `WithErrorLevel`. -/
def WithErrorLevel : Opt := WithLevel LevelError

/-- Go `WithLevelOff`. -/
def WithLevelOff : Opt := WithLevel LevelOff

/-- Numeric value of `slog.LevelDebug`. -/
def slogLevelDebug : Int := -4

/-- Numeric value of `slog.LevelInfo`. -/
def slogLevelInfo : Int := 0

/-- Numeric value of `slog.LevelWarn`. -/
def slogLevelWarn : Int := 4

/-- Numeric value of `slog.LevelError`. -/
def slogLevelError : Int := 8

/-- Go `toSlogLevel`: the switch in `logger.go` mapping `LogLevel` strings
to `slog.Level`, defaulting to info. -/
def toSlogLevel (level : LogLevel) : Int :=
  if level == LevelDebug then slogLevelDebug
  else if level == LevelInfo then slogLevelInfo
  else if level == LevelWarning then slogLevelWarn
  else if level == LevelError then slogLevelError
  else slogLevelInfo

/-- The lumberjack rotating file writer, identified by the configuration
`initLogger` builds it from. -/
structure FileWriter where
  Filename : String
  MaxAge : Int
  MaxBackups : Int
  MaxSize : Int
  Compress : Bool
deriving DecidableEq, Repr

/-- The writers a handler can be attached to: `io.Discard`, `os.Stdout`,
the standard-error stream used by `slog.Default()`, or a lumberjack file
writer. -/
inductive Writer where
  | discard
  | stdout
  | stderr
  | fileWriter (fw : FileWriter)
deriving DecidableEq, Repr

/-- The slog handler an embedded `*slog.Logger` was created with:
`slog.NewTextHandler`, `slog.NewJSONHandler` (each over a writer with a
minimum level), or the process-wide `slog.Default()` logger (a text handler
over standard error at info level). -/
inductive Handler where
  | text (w : Writer) (minLevel : Int)
  | json (w : Writer) (minLevel : Int)
  | slogDefault
deriving DecidableEq, Repr

/-- The minimum severity the handler lets through. -/
def Handler.minLevel : Handler → Int
  | .text _ m => m
  | .json _ m => m
  | .slogDefault => slogLevelInfo

/-- The writer the handler emits to. -/
def Handler.writer : Handler → Writer
  | .text w _ => w
  | .json w _ => w
  | .slogDefault => Writer.stderr

/-- Whether the handler encodes records as JSON. -/
def Handler.isJSON : Handler → Bool
  | .json _ _ => true
  | _ => false

/-- One formatted record as written by a handler. -/
structure Record where
  writer : Writer
  json : Bool
  level : Int
  msg : String
deriving DecidableEq, Repr

/-- A leveled call through a handler: slog drops the record when the
handler's minimum level exceeds the call's level, otherwise writes it to
the handler's writer. -/
def Handler.handle (h : Handler) (lvl : Int) (msg : String) : Option Record :=
  if h.minLevel ≤ lvl then some ⟨h.writer, h.isJSON, lvl, msg⟩ else none

/-- The `lumberjack.Logger` literal `initLogger` builds from a
configuration when `OutputFile` is non-empty. -/
def Config.rotationWriter (c : Config) : FileWriter :=
  { Filename := c.OutputFile
    MaxAge := c.MaxAgeDays
    MaxBackups := c.MaxBackups
    MaxSize := c.MaxSizeMB
    Compress := c.Compress }

/-- Go struct `Logger`: the embedded `*slog.Logger` (as the handler it was
built with, `none` for the nil pointer before `initLogger` runs), the
configuration, the optional lumberjack writer, and the disabled flag. -/
structure Logger where
  slogLogger : Option Handler
  config : Config
  file : Option FileWriter
  disabled : Bool
deriving DecidableEq, Repr

/-- Go `initLogger`: derives the slog handler (and, when file-backed, the
lumberjack writer) from the current configuration.  Mirrors the three
branches: disabled → text handler over `io.Discard` (nil options, so the
default info level); `UseDefault` → `slog.Default()`; otherwise stdout or a
lumberjack writer, wrapped in a JSON or text handler at the configured
level. -/
def Logger.initLogger (l : Logger) : Logger :=
  if l.disabled then
    { l with slogLogger := some (Handler.text Writer.discard slogLevelInfo) }
  else if l.config.UseDefault then
    { l with slogLogger := some Handler.slogDefault }
  else
    let fileOut : Option FileWriter × Writer :=
      if l.config.OutputFile ≠ "" then
        (some l.config.rotationWriter, Writer.fileWriter l.config.rotationWriter)
      else
        (l.file, Writer.stdout)
    let minLevel := toSlogLevel l.config.Level
    if l.config.JSONFormat then
      { l with slogLogger := some (Handler.json fileOut.2 minLevel), file := fileOut.1 }
    else
      { l with slogLogger := some (Handler.text fileOut.2 minLevel), file := fileOut.1 }

/-- The default configuration literal at the top of Go `New`. -/
def defaultConfig : Config :=
  { Level := LevelInfo
    OutputFile := ""
    MaxAgeDays := 7
    MaxBackups := 3
    MaxSizeMB := 100
    Compress := false
    JSONFormat := false
    UseDefault := false }

/-- Go `New`: defaults, option loop, `disabled := cfg.Level == LevelOff`,
then `initLogger`. -/
def New (opts : List Opt) : Logger :=
  let cfg := applyOpts opts defaultConfig
  Logger.initLogger
    { slogLogger := none
      config := cfg
      file := none
      disabled := cfg.Level == LevelOff }

/-- Go `Default()`: wraps `slog.Default()` with a zero-value `Config` whose
only set field is `UseDefault: true` (so `Level` is the zero string). -/
def Default : Logger :=
  { slogLogger := some Handler.slogDefault
    config :=
      { Level := ""
        OutputFile := ""
        MaxAgeDays := 0
        MaxBackups := 0
        MaxSizeMB := 0
        Compress := false
        JSONFormat := false
        UseDefault := true }
    file := none
    disabled := false }

/-- Go `WithOptions`: copies the configuration, applies the options, and
builds a brand-new logger (fresh nil file handle) via `initLogger`; the
receiver is not modified (it is not even passed on). -/
def Logger.WithOptions (l : Logger) (opts : List Opt) : Logger :=
  let newCfg := applyOpts opts l.config
  Logger.initLogger
    { slogLogger := none
      config := newCfg
      file := none
      disabled := newCfg.Level == LevelOff }

/-- Go `Close`: returns `l.file.Close()` when a file writer exists, else
nil.  The outcome of closing the lumberjack writer is external, so it is a
parameter; `none` plays Go's nil error. -/
def Logger.Close (l : Logger) (fileCloseResult : FileWriter → Option String) : Option String :=
  match l.file with
  | some fw => fileCloseResult fw
  | none => none

/-- Go `IsDebugEnabled`. -/
def Logger.IsDebugEnabled (l : Logger) : Bool :=
  l.config.Level == LevelDebug && !l.disabled

/-- Go `IsInfoEnabled`. -/
def Logger.IsInfoEnabled (l : Logger) : Bool :=
  (l.config.Level == LevelDebug || l.config.Level == LevelInfo) && !l.disabled

/-- Go `IsWarningEnabled`. -/
def Logger.IsWarningEnabled (l : Logger) : Bool :=
  l.config.Level != LevelError && l.config.Level != LevelOff && !l.disabled

/-- Go `IsErrorEnabled`. -/
def Logger.IsErrorEnabled (l : Logger) : Bool :=
  l.config.Level != LevelOff && !l.disabled

/-- Go `GetLevel`. -/
def Logger.GetLevel (l : Logger) : LogLevel := l.config.Level

/-- Go `GetConfig` (returns a copy; copies are the only mode here). -/
def Logger.GetConfig (l : Logger) : Config := l.config

/-- The record a leveled call produces, `none` when nothing is handled
(nil embedded logger, or filtered by the handler's minimum level). -/
def Logger.emitted (l : Logger) (lvl : Int) (msg : String) : Option Record :=
  match l.slogLogger with
  | some h => h.handle lvl msg
  | none => none

/-- A debug call, `l.Debug(msg, ...)`, through the embedded slog logger. -/
def Logger.Debug (l : Logger) (msg : String) : Option Record :=
  l.emitted slogLevelDebug msg

/-- An info call, `l.Info(msg, ...)`, through the embedded slog logger. -/
def Logger.Info (l : Logger) (msg : String) : Option Record :=
  l.emitted slogLevelInfo msg

/-- A warning call, `l.Warn(msg, ...)`, through the embedded slog logger. -/
def Logger.Warn (l : Logger) (msg : String) : Option Record :=
  l.emitted slogLevelWarn msg

/-- An error call, `l.Error(msg, ...)`, through the embedded slog logger. -/
def Logger.Error (l : Logger) (msg : String) : Option Record :=
  l.emitted slogLevelError msg

/-- Whether a leveled call writes a record anywhere observable (a record
sent to `io.Discard` is no output). -/
def Logger.producesOutput (l : Logger) (lvl : Int) (msg : String) : Bool :=
  match l.emitted lvl msg with
  | some r => r.writer != Writer.discard
  | none => false

/-- Modelled from the spec: a `Fatal` operation is part of the package's
documented API (spec section 4.3) but its definition is not among the
source files under `src/`.  The spec says fatal is "always forwarded at
error severity (never suppressed, even when disabled), then unconditionally
terminates the process with a non-zero status".  We model it as the record
the logger's sink handles at error severity, paired with the process exit
status 1. -/
def Logger.Fatal (l : Logger) (msg : String) : Option Record × Nat :=
  (l.emitted slogLevelError msg, 1)

/-! ## Basic lemmas about construction -/

/-- The slog handler `initLogger` installs, with the if-then-else on the
file writer distributed out of the pair. -/
lemma initLogger_eq (l : Logger) :
    l.initLogger =
      if l.disabled then
        { l with slogLogger := some (Handler.text Writer.discard slogLevelInfo) }
      else if l.config.UseDefault then
        { l with slogLogger := some Handler.slogDefault }
      else
        { l with
          slogLogger := some (
            if l.config.JSONFormat then
              Handler.json
                (if l.config.OutputFile ≠ "" then
                  Writer.fileWriter l.config.rotationWriter else Writer.stdout)
                (toSlogLevel l.config.Level)
            else
              Handler.text
                (if l.config.OutputFile ≠ "" then
                  Writer.fileWriter l.config.rotationWriter else Writer.stdout)
                (toSlogLevel l.config.Level))
          file :=
            if l.config.OutputFile ≠ "" then some l.config.rotationWriter else l.file } := by
  simp only [Logger.initLogger]
  split_ifs <;> rfl

/-- `initLogger` never changes the configuration. -/
lemma initLogger_config (l : Logger) : (l.initLogger).config = l.config := by
  rw [initLogger_eq]
  split_ifs <;> rfl

/-- When the disabled flag is set, `initLogger` installs the discard text
handler and touches nothing else. -/
lemma initLogger_disabled (l : Logger) (h : l.disabled = true) :
    l.initLogger = { l with slogLogger := some (Handler.text Writer.discard slogLevelInfo) } := by
  rw [initLogger_eq, if_pos h]

/-- When not disabled but `UseDefault` is set, `initLogger` installs the
process-wide default slog logger and touches nothing else. -/
lemma initLogger_useDefault (l : Logger) (hd : l.disabled = false)
    (hu : l.config.UseDefault = true) :
    l.initLogger = { l with slogLogger := some Handler.slogDefault } := by
  rw [initLogger_eq]
  simp [hd, hu]

/-- The configuration of a `New` logger is the options applied to the
defaults. -/
lemma New_config (opts : List Opt) :
    (New opts).GetConfig = applyOpts opts defaultConfig := by
  simp only [New, Logger.GetConfig]
  rw [initLogger_config]

/-- The `toSlogLevel` switch never maps above the error level. -/
lemma toSlogLevel_le_error (level : LogLevel) : toSlogLevel level ≤ slogLevelError := by
  unfold toSlogLevel
  split_ifs <;> decide

/-! ## Algebra of option application -/

/-- Applying a concatenation of option lists is applying them in turn:
the Go option loop over `xs ++ ys`. -/
lemma applyOpts_append (xs ys : List Opt) (c : Config) :
    applyOpts (xs ++ ys) c = applyOpts ys (applyOpts xs c) := by
  induction xs generalizing c with
  | nil => rfl
  | cons o rest ih => simp [applyOpts, ih]

/-- The value the last level-setting option in the list writes, if any. -/
def lastLevel? : List Opt → Option LogLevel
  | [] => none
  | Opt.withLevel level :: rest => some ((lastLevel? rest).getD level)
  | _ :: rest => lastLevel? rest

/-- The value the last output-file option in the list writes, if any. -/
def lastOutputFile? : List Opt → Option String
  | [] => none
  | Opt.withOutputFile file :: rest => some ((lastOutputFile? rest).getD file)
  | _ :: rest => lastOutputFile? rest

/-- The value the last max-age option in the list writes, if any. -/
def lastMaxAge? : List Opt → Option Int
  | [] => none
  | Opt.withMaxAge days :: rest => some ((lastMaxAge? rest).getD days)
  | _ :: rest => lastMaxAge? rest

/-- The value the last max-backups option in the list writes, if any. -/
def lastMaxBackups? : List Opt → Option Int
  | [] => none
  | Opt.withMaxBackups count :: rest => some ((lastMaxBackups? rest).getD count)
  | _ :: rest => lastMaxBackups? rest

/-- The value the last max-size option in the list writes, if any. -/
def lastMaxSize? : List Opt → Option Int
  | [] => none
  | Opt.withMaxSize sizeMB :: rest => some ((lastMaxSize? rest).getD sizeMB)
  | _ :: rest => lastMaxSize? rest

/-- Whether the list contains the compression option. -/
def setsCompression : List Opt → Bool
  | [] => false
  | Opt.withCompression :: _ => true
  | _ :: rest => setsCompression rest

/-- Whether the list contains the JSON-format option. -/
def setsJSONFormat : List Opt → Bool
  | [] => false
  | Opt.withJSONFormat :: _ => true
  | _ :: rest => setsJSONFormat rest

/-- Whether the list contains the default-format option. -/
def setsDefaultFormat : List Opt → Bool
  | [] => false
  | Opt.withDefaultFormat :: _ => true
  | _ :: rest => setsDefaultFormat rest

/-- Last write wins on the level field. -/
lemma applyOpts_Level (opts : List Opt) (c : Config) :
    (applyOpts opts c).Level = (lastLevel? opts).getD c.Level := by
  induction opts generalizing c with
  | nil => rfl
  | cons o rest ih =>
    cases o <;> simp [applyOpts, applyOpt, lastLevel?, ih]

/-- Last write wins on the output-file field. -/
lemma applyOpts_OutputFile (opts : List Opt) (c : Config) :
    (applyOpts opts c).OutputFile = (lastOutputFile? opts).getD c.OutputFile := by
  induction opts generalizing c with
  | nil => rfl
  | cons o rest ih =>
    cases o <;> simp [applyOpts, applyOpt, lastOutputFile?, ih]

/-- Last write wins on the max-age field. -/
lemma applyOpts_MaxAgeDays (opts : List Opt) (c : Config) :
    (applyOpts opts c).MaxAgeDays = (lastMaxAge? opts).getD c.MaxAgeDays := by
  induction opts generalizing c with
  | nil => rfl
  | cons o rest ih =>
    cases o <;> simp [applyOpts, applyOpt, lastMaxAge?, ih]

/-- Last write wins on the max-backups field. -/
lemma applyOpts_MaxBackups (opts : List Opt) (c : Config) :
    (applyOpts opts c).MaxBackups = (lastMaxBackups? opts).getD c.MaxBackups := by
  induction opts generalizing c with
  | nil => rfl
  | cons o rest ih =>
    cases o <;> simp [applyOpts, applyOpt, lastMaxBackups?, ih]

/-- Last write wins on the max-size field. -/
lemma applyOpts_MaxSizeMB (opts : List Opt) (c : Config) :
    (applyOpts opts c).MaxSizeMB = (lastMaxSize? opts).getD c.MaxSizeMB := by
  induction opts generalizing c with
  | nil => rfl
  | cons o rest ih =>
    cases o <;> simp [applyOpts, applyOpt, lastMaxSize?, ih]

/-- The compression flag only ever gets set, never cleared. -/
lemma applyOpts_Compress (opts : List Opt) (c : Config) :
    (applyOpts opts c).Compress = (c.Compress || setsCompression opts) := by
  induction opts generalizing c with
  | nil => simp [applyOpts, setsCompression]
  | cons o rest ih =>
    cases o <;> simp [applyOpts, applyOpt, setsCompression, ih]

/-- The JSON-format flag only ever gets set, never cleared. -/
lemma applyOpts_JSONFormat (opts : List Opt) (c : Config) :
    (applyOpts opts c).JSONFormat = (c.JSONFormat || setsJSONFormat opts) := by
  induction opts generalizing c with
  | nil => simp [applyOpts, setsJSONFormat]
  | cons o rest ih =>
    cases o <;> simp [applyOpts, applyOpt, setsJSONFormat, ih]

/-- The default-format flag only ever gets set, never cleared. -/
lemma applyOpts_UseDefault (opts : List Opt) (c : Config) :
    (applyOpts opts c).UseDefault = (c.UseDefault || setsDefaultFormat opts) := by
  induction opts generalizing c with
  | nil => simp [applyOpts, setsDefaultFormat]
  | cons o rest ih =>
    cases o <;> simp [applyOpts, applyOpt, setsDefaultFormat, ih]

/-- Applying the same option sequence a second time changes nothing. -/
lemma applyOpts_idem (opts : List Opt) (c : Config) :
    applyOpts opts (applyOpts opts c) = applyOpts opts c := by
  apply Config.ext
  · simp only [applyOpts_Level]
    cases lastLevel? opts <;> simp
  · simp only [applyOpts_OutputFile]
    cases lastOutputFile? opts <;> simp
  · simp only [applyOpts_MaxAgeDays]
    cases lastMaxAge? opts <;> simp
  · simp only [applyOpts_MaxBackups]
    cases lastMaxBackups? opts <;> simp
  · simp only [applyOpts_MaxSizeMB]
    cases lastMaxSize? opts <;> simp
  · simp only [applyOpts_Compress]
    cases setsCompression opts <;> simp
  · simp only [applyOpts_JSONFormat]
    cases setsJSONFormat opts <;> simp
  · simp only [applyOpts_UseDefault]
    cases setsDefaultFormat opts <;> simp

/-- The configuration field an option writes, as an index. -/
def touches : Opt → Nat
  | .withLevel _ => 0
  | .withOutputFile _ => 1
  | .withMaxAge _ => 2
  | .withMaxBackups _ => 3
  | .withMaxSize _ => 4
  | .withCompression => 5
  | .withJSONFormat => 6
  | .withDefaultFormat => 7

/-- Options writing different fields commute. -/
lemma applyOpt_comm (o₁ o₂ : Opt) (c : Config) (h : touches o₁ ≠ touches o₂) :
    applyOpt (applyOpt c o₁) o₂ = applyOpt (applyOpt c o₂) o₁ := by
  cases o₁ <;> cases o₂ <;> first | rfl | exact absurd rfl h

/-- For options writing the same field, the later write wins. -/
lemma applyOpt_last_wins (o₁ o₂ : Opt) (c : Config) (h : touches o₁ = touches o₂) :
    applyOpt (applyOpt c o₁) o₂ = applyOpt c o₂ := by
  cases o₁ <;> cases o₂ <;> first | rfl | simp [touches] at h

/-- The level reported by a `New` logger is the level of the applied
configuration. -/
lemma New_level (opts : List Opt) :
    (New opts).GetLevel = (applyOpts opts defaultConfig).Level :=
  congrArg Config.Level (New_config opts)

/-- Every logger `New` builds carries a handler, and that handler's minimum
level never exceeds the error level. -/
lemma New_handler_le (opts : List Opt) :
    ∃ hd, (New opts).slogLogger = some hd ∧ hd.minLevel ≤ slogLevelError := by
  simp only [New]
  rw [initLogger_eq]
  split_ifs <;>
    first
      | exact ⟨_, rfl, by decide⟩
      | exact ⟨_, rfl, toSlogLevel_le_error _⟩

/-! ## The claims -/

/-- C1: for every logger constructed via `New` whose level is the off
level, the sink is a discard text handler, the debug, info, warning and
error operations produce no output, and the four enabled predicates are
all false. -/
theorem C1_off_level_disables (opts : List Opt) (msg : String)
    (h : (New opts).GetLevel = LevelOff) :
    (New opts).slogLogger = some (Handler.text Writer.discard slogLevelInfo) ∧
    (New opts).producesOutput slogLevelDebug msg = false ∧
    (New opts).producesOutput slogLevelInfo msg = false ∧
    (New opts).producesOutput slogLevelWarn msg = false ∧
    (New opts).producesOutput slogLevelError msg = false ∧
    ((New opts).Debug msg).all (fun r => r.writer == Writer.discard) = true ∧
    ((New opts).Info msg).all (fun r => r.writer == Writer.discard) = true ∧
    ((New opts).Warn msg).all (fun r => r.writer == Writer.discard) = true ∧
    ((New opts).Error msg).all (fun r => r.writer == Writer.discard) = true ∧
    (New opts).IsDebugEnabled = false ∧
    (New opts).IsInfoEnabled = false ∧
    (New opts).IsWarningEnabled = false ∧
    (New opts).IsErrorEnabled = false := by
  have hc : (applyOpts opts defaultConfig).Level = LevelOff := by
    rw [New_level] at h
    exact h
  have hN : New opts =
      { slogLogger := some (Handler.text Writer.discard slogLevelInfo)
        config := applyOpts opts defaultConfig
        file := none
        disabled := true } := by
    simp only [New]
    rw [initLogger_disabled _ (by simp [hc])]
    simp [hc]
  refine ⟨by rw [hN], ?_, ?_, ?_, ?_, ?_, ?_, ?_, ?_, ?_, ?_, ?_, ?_⟩ <;>
    simp [hN, Logger.producesOutput, Logger.emitted, Logger.Debug, Logger.Info,
      Logger.Warn, Logger.Error, Handler.handle, Handler.minLevel, Handler.writer,
      Handler.isJSON, Logger.IsDebugEnabled, Logger.IsInfoEnabled,
      Logger.IsWarningEnabled, Logger.IsErrorEnabled, slogLevelDebug, slogLevelInfo,
      slogLevelWarn, slogLevelError]

/-- C1 witness: the logger `New(WithLevelOff())` satisfies the off-level
hypothesis concretely. -/
theorem C1_off_level_disables_witness :
    (New [WithLevelOff]).slogLogger = some (Handler.text Writer.discard slogLevelInfo) ∧
    (New [WithLevelOff]).producesOutput slogLevelDebug "m" = false ∧
    (New [WithLevelOff]).producesOutput slogLevelInfo "m" = false ∧
    (New [WithLevelOff]).producesOutput slogLevelWarn "m" = false ∧
    (New [WithLevelOff]).producesOutput slogLevelError "m" = false ∧
    ((New [WithLevelOff]).Debug "m").all (fun r => r.writer == Writer.discard) = true ∧
    ((New [WithLevelOff]).Info "m").all (fun r => r.writer == Writer.discard) = true ∧
    ((New [WithLevelOff]).Warn "m").all (fun r => r.writer == Writer.discard) = true ∧
    ((New [WithLevelOff]).Error "m").all (fun r => r.writer == Writer.discard) = true ∧
    (New [WithLevelOff]).IsDebugEnabled = false ∧
    (New [WithLevelOff]).IsInfoEnabled = false ∧
    (New [WithLevelOff]).IsWarningEnabled = false ∧
    (New [WithLevelOff]).IsErrorEnabled = false :=
  C1_off_level_disables [WithLevelOff] "m" (by decide)

/-- C2: `WithOptions` yields a logger whose configuration is the receiver's
configuration with the options applied in order, and on the spec's concrete
instance the new logger has level debug, JSON format on, output file
preserved, while the original logger's level stays info. -/
theorem C2_withOptions_copy :
    (∀ (l : Logger) (opts : List Opt),
        (l.WithOptions opts).GetConfig = applyOpts opts l.GetConfig) ∧
    ((New [WithInfoLevel, WithOutputFile "test.log"]).WithOptions
        [WithDebugLevel, WithJSONFormat]).GetLevel = LevelDebug ∧
    ((New [WithInfoLevel, WithOutputFile "test.log"]).WithOptions
        [WithDebugLevel, WithJSONFormat]).GetConfig.JSONFormat = true ∧
    ((New [WithInfoLevel, WithOutputFile "test.log"]).WithOptions
        [WithDebugLevel, WithJSONFormat]).GetConfig.OutputFile = "test.log" ∧
    (New [WithInfoLevel, WithOutputFile "test.log"]).GetLevel = LevelInfo := by
  refine ⟨fun l opts => ?_, by decide, by decide, by decide, by decide⟩
  simp only [Logger.WithOptions, Logger.GetConfig]
  rw [initLogger_config]

/-- C3: `New` starts from the documented default configuration (level info,
max age 7, max backups 3, max size 100, text format, stdout sink), applies
the options in order, and the spec's concrete construction yields exactly
the stated configuration. -/
theorem C3_new_defaults :
    defaultConfig =
      { Level := LevelInfo, OutputFile := "", MaxAgeDays := 7, MaxBackups := 3,
        MaxSizeMB := 100, Compress := false, JSONFormat := false,
        UseDefault := false } ∧
    (∀ opts, (New opts).GetConfig = applyOpts opts defaultConfig) ∧
    (New []).slogLogger = some (Handler.text Writer.stdout slogLevelInfo) ∧
    (New [WithDebugLevel, WithMaxAge 1, WithMaxSize 100, WithJSONFormat]).GetConfig =
      { Level := LevelDebug, OutputFile := "", MaxAgeDays := 1, MaxBackups := 3,
        MaxSizeMB := 100, Compress := false, JSONFormat := true,
        UseDefault := false } :=
  ⟨rfl, fun opts => New_config opts, by decide, by decide⟩

/-- C4: over the five named levels, the warning predicate is true exactly
below the error level and the error predicate is true except at the off
level, following the severity ordering debug, info, warning, error, off. -/
theorem C4_severity_ordering (level : LogLevel)
    (h : level = LevelDebug ∨ level = LevelInfo ∨ level = LevelWarning ∨
         level = LevelError ∨ level = LevelOff) :
    (New [WithLevel level]).IsWarningEnabled =
      (level == LevelDebug || level == LevelInfo || level == LevelWarning) ∧
    (New [WithLevel level]).IsErrorEnabled = (level != LevelOff) := by
  rcases h with rfl | rfl | rfl | rfl | rfl <;> exact ⟨by decide, by decide⟩

/-- C4 witness: concrete instances at the warning and off levels. -/
theorem C4_severity_ordering_witness :
    (New [WithLevel LevelWarning]).IsWarningEnabled = true ∧
    (New [WithLevel LevelOff]).IsErrorEnabled = false :=
  ⟨((C4_severity_ordering LevelWarning (by simp)).1).trans (by decide),
   ((C4_severity_ordering LevelOff (by simp)).2).trans (by decide)⟩

/-- C5: when the use-default-format flag is set and the level is not off,
the pipeline reuses the process-wide default slog logger: no file writer is
created even with an output file configured, the JSON flag is ignored, and
the emitted record shape is the default plain text (not JSON) on standard
error. -/
theorem C5_default_format_precedence (opts : List Opt) (msg : String)
    (hu : (New opts).GetConfig.UseDefault = true)
    (hoff : (New opts).GetLevel ≠ LevelOff) :
    (New opts).file = none ∧
    (New opts).slogLogger = some Handler.slogDefault ∧
    ((New opts).Info msg).map Record.json = some false ∧
    ((New opts).Info msg).map Record.writer = some Writer.stderr := by
  rw [New_config] at hu
  rw [New_level] at hoff
  have hN : New opts =
      { slogLogger := some Handler.slogDefault
        config := applyOpts opts defaultConfig
        file := none
        disabled := (applyOpts opts defaultConfig).Level == LevelOff } := by
    simp only [New]
    rw [initLogger_useDefault _ (by simp [hoff]) hu]
  refine ⟨by rw [hN], by rw [hN], ?_, ?_⟩ <;>
    simp [hN, Logger.Info, Logger.emitted, Handler.handle, Handler.minLevel,
      Handler.writer, Handler.isJSON, slogLevelInfo]

/-- C5 witness: a construction that supplies the default-format option
together with an output file and the JSON option. -/
theorem C5_default_format_precedence_witness :
    (New [WithDefaultFormat, WithOutputFile "app.log", WithJSONFormat]).file = none ∧
    (New [WithDefaultFormat, WithOutputFile "app.log", WithJSONFormat]).slogLogger =
      some Handler.slogDefault ∧
    ((New [WithDefaultFormat, WithOutputFile "app.log", WithJSONFormat]).Info "m").map
      Record.json = some false ∧
    ((New [WithDefaultFormat, WithOutputFile "app.log", WithJSONFormat]).Info "m").map
      Record.writer = some Writer.stderr :=
  C5_default_format_precedence [WithDefaultFormat, WithOutputFile "app.log", WithJSONFormat]
    "m" (by decide) (by decide)

/-- C6: the fatal operation (modelled from the spec, as it is not among the
source files) hands the sink a record at error severity for every logger
`New` builds — including one whose level is off — and for the `Default()`
logger, and yields a non-zero process exit status. -/
theorem C6_fatal_terminates (opts : List Opt) (msg : String) :
    ((New opts).Fatal msg).1.isSome = true ∧
    ((New opts).Fatal msg).1.all (fun r => r.level == slogLevelError) = true ∧
    ((New opts).Fatal msg).2 ≠ 0 ∧
    (Default.Fatal msg).1.isSome = true ∧
    (Default.Fatal msg).2 ≠ 0 := by
  obtain ⟨hd, hsl, hle⟩ := New_handler_le opts
  have he : (New opts).emitted slogLevelError msg =
      some ⟨hd.writer, hd.isJSON, slogLevelError, msg⟩ := by
    simp [Logger.emitted, hsl, Handler.handle, hle]
  refine ⟨by simp [Logger.Fatal, he], by simp [Logger.Fatal, he],
    by simp [Logger.Fatal], ?_, by simp [Logger.Fatal]⟩
  simp [Logger.Fatal, Default, Logger.emitted, Handler.handle, Handler.minLevel,
    slogLevelInfo, slogLevelError]

/-- C7: option application is pure over the draft configuration — applying
a sequence twice equals applying it once, options on distinct fields
commute, and of two options on the same field the last write wins. -/
theorem C7_options_pure :
    (∀ (opts : List Opt) (c : Config),
        applyOpts opts (applyOpts opts c) = applyOpts opts c) ∧
    (∀ (o₁ o₂ : Opt) (c : Config), touches o₁ ≠ touches o₂ →
        applyOpt (applyOpt c o₁) o₂ = applyOpt (applyOpt c o₂) o₁) ∧
    (∀ (o₁ o₂ : Opt) (c : Config), touches o₁ = touches o₂ →
        applyOpt (applyOpt c o₁) o₂ = applyOpt c o₂) :=
  ⟨applyOpts_idem, applyOpt_comm, applyOpt_last_wins⟩

/-- C7 witness: a concrete idempotent sequence, a concrete commuting pair
on distinct fields, and a concrete last-write-wins pair on the level
field. -/
theorem C7_options_pure_witness :
    applyOpts [WithLevel LevelDebug, WithJSONFormat]
        (applyOpts [WithLevel LevelDebug, WithJSONFormat] defaultConfig) =
      applyOpts [WithLevel LevelDebug, WithJSONFormat] defaultConfig ∧
    applyOpt (applyOpt defaultConfig (WithLevel LevelDebug)) WithJSONFormat =
      applyOpt (applyOpt defaultConfig WithJSONFormat) (WithLevel LevelDebug) ∧
    applyOpt (applyOpt defaultConfig (WithLevel LevelInfo)) (WithLevel LevelDebug) =
      applyOpt defaultConfig (WithLevel LevelDebug) :=
  ⟨C7_options_pure.1 [WithLevel LevelDebug, WithJSONFormat] defaultConfig,
   C7_options_pure.2.1 (WithLevel LevelDebug) WithJSONFormat defaultConfig (by decide),
   C7_options_pure.2.2 (WithLevel LevelInfo) (WithLevel LevelDebug) defaultConfig (by decide)⟩

/-- C8 counterexample: applying a sequence to the default configuration is
not, in general, equal to applying it to a configuration derived from the
defaults by a prior sequence — a prior JSON-format option survives. -/
theorem C8_counterexample :
    ¬ (applyOpts [WithMaxAge 1] defaultConfig =
        applyOpts [WithMaxAge 1] (applyOpts [WithJSONFormat] defaultConfig)) := by
  decide

/-- C8 (amended): applying a sequence to a configuration derived from the
defaults by a prior sequence equals applying the concatenated sequence to
the defaults; equivalently, deriving via `WithOptions` from `New prior`
yields the same configuration as `New (prior ++ opts)`. -/
theorem C8_compose (prior opts : List Opt) :
    applyOpts opts (applyOpts prior defaultConfig) =
      applyOpts (prior ++ opts) defaultConfig ∧
    ((New prior).WithOptions opts).GetConfig = (New (prior ++ opts)).GetConfig := by
  constructor
  · exact (applyOpts_append prior opts defaultConfig).symm
  · have h1 : ((New prior).WithOptions opts).GetConfig =
        applyOpts opts ((New prior).GetConfig) := by
      simp only [Logger.WithOptions, Logger.GetConfig]
      rw [initLogger_config]
    rw [h1, New_config, New_config, applyOpts_append]

/-- C9: the `Default()` logger carries the zero-value empty level string,
for which the debug and info predicates are false while the warning and
error predicates are true — outside the documented severity ordering. -/
theorem C9_default_logger_predicates :
    Default.GetLevel = "" ∧
    Default.IsDebugEnabled = false ∧
    Default.IsInfoEnabled = false ∧
    Default.IsWarningEnabled = true ∧
    Default.IsErrorEnabled = true := by
  decide

/-- C10: a `New` logger whose level is off or whose use-default flag is set
never creates a file writer, even with an output file configured, and its
`Close` returns nil; in general `Close` propagates the file writer's close
outcome exactly when a file writer exists. -/
theorem C10_close_nil (opts : List Opt) (fileCloseResult : FileWriter → Option String)
    (h : (New opts).GetConfig.Level = LevelOff ∨ (New opts).GetConfig.UseDefault = true) :
    (New opts).file = none ∧
    (New opts).Close fileCloseResult = none ∧
    (∀ l : Logger, l.file = none → l.Close fileCloseResult = none) ∧
    (∀ (l : Logger) (fw : FileWriter), l.file = some fw →
        l.Close fileCloseResult = fileCloseResult fw) := by
  rw [New_config] at h
  have hfile : (New opts).file = none := by
    simp only [New]
    by_cases hoff : (applyOpts opts defaultConfig).Level = LevelOff
    · rw [initLogger_disabled _ (by simp [hoff])]
    · have hu : (applyOpts opts defaultConfig).UseDefault = true := h.resolve_left hoff
      rw [initLogger_useDefault _ (by simp [hoff]) hu]
  refine ⟨hfile, by simp [Logger.Close, hfile], fun l hl => by simp [Logger.Close, hl],
    fun l fw hl => by simp [Logger.Close, hl]⟩

/-- C10 witness: the off level with an output file configured still yields
no file writer and a nil close outcome. -/
theorem C10_close_nil_witness :
    (New [WithLevelOff, WithOutputFile "app.log"]).file = none ∧
    (New [WithLevelOff, WithOutputFile "app.log"]).Close
      (fun _ => some "close failure") = none :=
  ⟨(C10_close_nil [WithLevelOff, WithOutputFile "app.log"]
      (fun _ => some "close failure") (by decide)).1,
   (C10_close_nil [WithLevelOff, WithOutputFile "app.log"]
      (fun _ => some "close failure") (by decide)).2.1⟩

end Jkaninda
